import Mathlib

/-
Verification of the fs-capacitor core (src/src/index.ts, the current
`WriteStream`/`ReadStream` pair built on `stream.Writable`/`stream.Readable`).

The embedding is a shallow state machine.  JavaScript `Error` objects are
modelled as natural-number identities (`Err`), so propagating "the very same
error object" is propagating the same value.  Paths and file descriptors are
natural numbers.  The single-threaded event loop is modelled by explicit
pending-operation fields: each asynchronous filesystem call made by the source
(`fs.open`, `fs.write`, `fs.read`, `fs.close`, `fs.unlink`) is split into the
moment it is issued and the step in which its callback runs; steps interleave
arbitrarily, subject to the preconditions stated in the `Step` relation (which
encode the guarantees the Node stream machinery provides, e.g. that `_write`
calls are serialized).
-/

namespace FsCapacitor

/-- Error identities: distinct values model distinct JavaScript `Error`
objects. -/
abbrev Err := Nat

/-- JavaScript `a || b` on nullable error values, as used in
`callback(unlinkError || closeError || error)` (an `Error` object is truthy,
`null`/`undefined` are falsy). -/
def jsOr (a b : Option Err) : Option Err :=
  match a with
  | some x => some x
  | none => b

/-- First non-null element of a list of nullable errors, in order.  This is
the specification-side reading of a priority order. -/
def firstSome : List (Option Err) → Option Err
  | [] => none
  | a :: rest =>
    match a with
    | some x => some x
    | none => firstSome rest

/-- The `type File = { fd: number; path: string }` record: exactly the data a
cleanup thunk closes over. -/
structure File where
  fd : Nat
  path : Nat
deriving DecidableEq

/-- Operating-system view used by the exit-cleanup model: which descriptors
are open and which paths exist on disk. -/
structure OsState where
  openFds : List Nat
  paths : List Nat
deriving DecidableEq

/-- The `cleanupSync(file)` helper: best-effort close of the descriptor and
best-effort unlink of the path (failures are swallowed, so the effect is
simply removal).  It is a function of the `File` pair alone. -/
def cleanupSync (f : File) (os : OsState) : OsState :=
  { openFds := os.openFds.filter (fun d => d != f.fd)
    paths := os.paths.filter (fun p => p != f.path) }

/-- Process-wide exit-cleanup registry: the module-level `cleanupCalls` set,
the `exitListenerRegistered` flag, and a count of how many `exit` listeners
have actually been installed on the process. -/
structure Registry where
  cleanupCalls : List File
  exitListenerRegistered : Bool
  exitListeners : Nat
deriving DecidableEq

/-- Registry state at module load: no thunks, no listener. -/
def Registry.start : Registry :=
  { cleanupCalls := [], exitListenerRegistered := false, exitListeners := 0 }

/-- The `registerExitListener` function: installs the process `exit` hook
unless one was already registered. -/
def registerExitListener (r : Registry) : Registry :=
  if r.exitListenerRegistered then r
  else { r with exitListeners := r.exitListeners + 1, exitListenerRegistered := true }

/-- The registry work done in the `fs.open` callback of the `WriteStream`
constructor: `this._cleanup = makeCleanupFn({fd, path})` is added to
`cleanupCalls`, then `registerExitListener()` runs.  The thunk is represented
by the `File` pair it closes over. -/
def addWriterCleanup (f : File) (r : Registry) : Registry :=
  registerExitListener { r with cleanupCalls := f :: r.cleanupCalls }

/-- Running one registered cleanup thunk (the function produced by
`makeCleanupFn`): it calls `cleanupSync(file)` and then deletes itself from
`cleanupCalls`. -/
def runCleanupFn (f : File) (ros : Registry × OsState) : Registry × OsState :=
  ({ ros.1 with cleanupCalls := ros.1.cleanupCalls.erase f }, cleanupSync f ros.2)

/-- Registry-visible operations over the life of a process: a writer's open
callback, running one cleanup thunk from the exit hook, and the unregistration
performed when a writer's `_destroy` completes. -/
inductive RegOp where
  | openWriter (f : File)
  | runHook (f : File)
  | unregister (f : File)
deriving DecidableEq

/-- Effect of one registry operation on the registry state. -/
def applyRegOp (r : Registry) (op : RegOp) : Registry :=
  match op with
  | .openWriter f => addWriterCleanup f r
  | .runHook f => { r with cleanupCalls := r.cleanupCalls.erase f }
  | .unregister f => { r with cleanupCalls := r.cleanupCalls.erase f }

/-- Registry state after a sequence of operations starting at module load. -/
def applyRegOps (ops : List RegOp) : Registry :=
  ops.foldl applyRegOp Registry.start

/-- State of one `ReadStream` attached to the `WriteStream`.  `pos` is the
stream's private `_pos`; `delivered` records the bytes pushed downstream;
`waitReady` records a `_read(n)` deferred by `once("ready", ...)`;
`readPending` records an `fs.read` of length `n` whose callback has not yet
run; `retryOnWrite`/`retryOnFinish` record the `retry` listener registered on
the writer's `"write"` and `"finish"` events. -/
structure Reader where
  pos : Nat
  destroyed : Bool
  err : Option Err
  ended : Bool
  delivered : List Nat
  waitReady : Option Nat
  readPending : Option Nat
  retryOnWrite : Option Nat
  retryOnFinish : Option Nat
deriving DecidableEq

/-- A freshly constructed `ReadStream`. -/
def Reader.start : Reader :=
  { pos := 0, destroyed := false, err := none, ended := false, delivered := []
    waitReady := none, readPending := none, retryOnWrite := none, retryOnFinish := none }

/-- Whole-system state: the `WriteStream` fields (`_fd`, `_path`, `_pos`,
`_readStreams`, `_released`, `_cleanup`, plus the stream-machinery flags
`destroyed` and `finished`), the asynchronous operations in flight, the
operating-system view of the temp file, the process-wide registry fields, and
every `ReadStream` ever created (keyed by identity). -/
structure Sys where
  fd : Option Nat
  filePath : Option Nat
  pos : Nat
  readStreams : List Nat
  released : Bool
  cleanup : Option File
  destroyed : Bool
  finished : Bool
  destroyDeferred : Option (Option Err)
  writeDeferred : Option (List Nat)
  openPending : Bool
  writeSysPending : Option (Nat × List Nat)
  writeCbPending : Option (Nat × List Nat)
  closePending : Option (Option Err)
  unlinkPending : Option (Option Err × Option Err)
  destroyCbArg : Option (Option Err)
  disk : List Nat
  fileOnDisk : Bool
  fdOpen : Bool
  cleanupCalls : List File
  exitListenerRegistered : Bool
  exitListeners : Nat
  readers : List (Nat × Reader)
  nextId : Nat
deriving DecidableEq

/-- The reader registered under identity `rid`, if any. -/
def getReader (s : Sys) (rid : Nat) : Option Reader :=
  (s.readers.find? (fun p => p.1 == rid)).map Prod.snd

/-- Rewrite every reader through `g` (which may inspect the identity). -/
def mapReaders (g : Nat → Reader → Reader) (s : Sys) : Sys :=
  { s with readers := s.readers.map (fun p => (p.1, g p.1 p.2)) }

/-- Rewrite the reader registered under `rid` through `f`. -/
def updateReader (rid : Nat) (f : Reader → Reader) (s : Sys) : Sys :=
  mapReaders (fun i r => if i == rid then f r else r) s

/-- Destruction of a `ReadStream` (`destroy(err)`) as far as the stream's own state
is concerned: record the destroyed flag and the error it carries.  A second
destruction of an already-destroyed stream is a no-op. -/
def readerDestroyR (r : Reader) (e : Option Err) : Reader :=
  if r.destroyed then r else { r with destroyed := true, err := e }

/-- Body of `ReadStream._read(n)` against a writer whose `_fd` is `wfd`:
a destroyed stream does nothing; before the writer is ready the call is
re-queued on `once("ready")`; otherwise `fs.read(fd, buf, 0, n, this._pos)` is
issued — for the full `n` bytes. -/
def readStartR (wfd : Option Nat) (r : Reader) (n : Nat) : Reader :=
  if r.destroyed then r
  else if wfd.isNone then { r with waitReady := some n }
  else { r with readPending := some n }

/-- Body of `WriteStream._write(chunk, ...)`: before the writer is ready the
call is re-queued on `once("ready")`; otherwise
`fs.write(this._fd, chunk, 0, chunk.length, this._pos, ...)` is issued, with
the position captured at call time. -/
def writeImpl (c : List Nat) (s : Sys) : Sys :=
  match s.fd with
  | none => { s with writeDeferred := some c }
  | some _ => { s with writeSysPending := some (s.pos, c) }

/-- The loop at the end of `WriteStream._destroy`: every read stream still in
`_readStreams` is destroyed with `error || undefined`, i.e. with the original
error passed through unchanged. -/
def destroyAttachedReaders (e : Option Err) (s : Sys) : Sys :=
  mapReaders (fun i r => if s.readStreams.contains i then readerDestroyR r e else r) s

/-- Body of `WriteStream._destroy(error, callback)`: if `_fd` or `_path` is
not yet assigned the whole call is re-queued on `once("ready")`; otherwise
`fs.close` is issued (the unlink and callback follow in its completion) and
every attached read stream is destroyed with the same error. -/
def destroyImpl (e : Option Err) (s : Sys) : Sys :=
  if s.fd.isSome && s.filePath.isSome then
    destroyAttachedReaders e { s with closePending := some e }
  else
    { s with destroyDeferred := some e }

/-- Dispatch of the writer's `"write"` event: each reader whose `retry`
listener is registered removes that listener from both the `"write"` and the
`"finish"` event and re-runs `_read(n)`. -/
def emitWrite (s : Sys) : Sys :=
  mapReaders (fun _ r =>
    match r.retryOnWrite with
    | some n => readStartR s.fd { r with retryOnWrite := none, retryOnFinish := none } n
    | none => r) s

/-- Dispatch of the writer's `"finish"` event, identical to `emitWrite` but
triggered through the `"finish"` registration. -/
def emitFinish (s : Sys) : Sys :=
  mapReaders (fun _ r =>
    match r.retryOnFinish with
    | some n => readStartR s.fd { r with retryOnWrite := none, retryOnFinish := none } n
    | none => r) s

/-- Dispatch of the writer's `"ready"` event: the deferred `_write`, the
deferred `_destroy`, and every reader's deferred `_read` are re-entered, each
`once` registration being consumed. -/
def emitReady (s : Sys) : Sys :=
  let s1 :=
    match s.writeDeferred with
    | some c => writeImpl c { s with writeDeferred := none }
    | none => s
  let s2 :=
    match s1.destroyDeferred with
    | some e => destroyImpl e { s1 with destroyDeferred := none }
    | none => s1
  mapReaders (fun _ r =>
    match r.waitReady with
    | some n => readStartR s2.fd { r with waitReady := none } n
    | none => r) s2

/-- The stream-level `destroy(error)` call on the writer: a no-op if already
destroyed, otherwise the `destroyed` flag is set and `_destroy` runs. -/
def destroyWS (e : Option Err) (s : Sys) : Sys :=
  if s.destroyed then s else destroyImpl e { s with destroyed := true }

/-- The method `WriteStream.release()`: set `_released`; if no read streams are attached,
destroy immediately. -/
def release (s : Sys) : Sys :=
  let s1 := { s with released := true }
  if s1.readStreams.isEmpty then destroyWS none s1 else s1

/-- The two lifecycle-misuse errors thrown by `createReadStream`. -/
inductive CreateError where
  | readAfterDestroyed
  | readAfterReleased
deriving DecidableEq

/-- The method `WriteStream.createReadStream(options)`: throws `ReadAfterDestroyedError`
if the writer is destroyed, then `ReadAfterReleasedError` if it was released;
otherwise a new `ReadStream` is constructed and added to `_readStreams`. -/
def createReadStream (s : Sys) : Except CreateError (Sys × Nat) :=
  if s.destroyed then .error .readAfterDestroyed
  else if s.released then .error .readAfterReleased
  else
    .ok ({ s with readers := (s.nextId, Reader.start) :: s.readers
                  readStreams := s.nextId :: s.readStreams
                  nextId := s.nextId + 1 }, s.nextId)

/-- The `remove` listener attached to each read stream's `"close"` event: the
stream is deleted from `_readStreams`, and if the writer was released and no
read streams remain, `this.destroy()` runs. -/
def removeHandler (rid : Nat) (s : Sys) : Sys :=
  let s1 := { s with readStreams := s.readStreams.erase rid }
  if s1.released && s1.readStreams.isEmpty then destroyWS none s1 else s1

/-- Completion of the constructor's `crypto.randomBytes` + `fs.open` sequence
with path `p` and descriptor `fdv`: `_path` is assigned, the cleanup thunk for
`{fd, path}` is created and added to `cleanupCalls`, `registerExitListener`
runs, `_fd` is assigned, and the `"ready"` event fires. -/
def openComplete (p fdv : Nat) (s : Sys) : Sys :=
  emitReady
    { s with filePath := some p
             cleanup := some { fd := fdv, path := p }
             cleanupCalls := { fd := fdv, path := p } :: s.cleanupCalls
             exitListeners := if s.exitListenerRegistered then s.exitListeners else s.exitListeners + 1
             exitListenerRegistered := true
             fd := some fdv
             openPending := false
             fileOnDisk := true
             fdOpen := true }

/-- Contents of the file after an `fs.write` of `c` at offset `p` (positions
beyond the previous end are zero-filled, as the OS does for sparse writes). -/
def writeAt (d : List Nat) (p : Nat) (c : List Nat) : List Nat :=
  d.take p ++ List.replicate (p - d.length) 0 ++ c ++ d.drop (p + c.length)

/-- The `fs.write` syscall in flight reaches the disk: the file now contains
the chunk, and the JavaScript callback becomes runnable. -/
def writeSysDone (s : Sys) : Sys :=
  match s.writeSysPending with
  | some (p, c) =>
    { s with disk := writeAt s.disk p c, writeSysPending := none, writeCbPending := some (p, c) }
  | none => s

/-- The `fs.write` success callback runs: `this._pos += chunk.length`, then
`this.emit("write")` — the notification is dispatched against the advanced
position — then the writable callback. -/
def writeCbDone (s : Sys) : Sys :=
  match s.writeCbPending with
  | some (_, c) => emitWrite { s with pos := s.pos + c.length, writeCbPending := none }
  | none => s

/-- The writable machinery finishes the writer (`_final` has run and the
`"finish"` event fires). -/
def finishWriter (s : Sys) : Sys :=
  emitFinish { s with finished := true }

/-- The stream machinery calls `_read(n)` on reader `rid`. -/
def readStart (rid n : Nat) (s : Sys) : Sys :=
  updateReader rid (fun r => readStartR s.fd r n) s

/-- The `fs.read` callback for reader `rid` runs: `bytesRead` is however much
of the requested `n` bytes actually exists in the file at `this._pos`.  A
non-zero read advances `_pos` and pushes the bytes; a zero read with the
writer finished pushes `null` (end-of-data); a zero read otherwise registers
the `retry` listener on both the `"write"` and the `"finish"` event. -/
def readDone (rid : Nat) (s : Sys) : Sys :=
  match getReader s rid with
  | none => s
  | some r =>
    match r.readPending with
    | none => s
    | some n =>
      let k := min n (s.disk.length - r.pos)
      if 0 < k then
        updateReader rid (fun r0 =>
          { r0 with pos := r0.pos + k
                    delivered := r0.delivered ++ (s.disk.drop r0.pos).take k
                    readPending := none }) s
      else if s.finished then
        updateReader rid (fun r0 => { r0 with ended := true, readPending := none }) s
      else
        updateReader rid (fun r0 =>
          { r0 with retryOnWrite := some n, retryOnFinish := some n, readPending := none }) s

/-- A user-level `destroy(e)` call on reader `rid`. -/
def readerDestroy (rid : Nat) (e : Option Err) (s : Sys) : Sys :=
  updateReader rid (fun r => readerDestroyR r e) s

/-- The `"close"` event of reader `rid` fires (after its destruction or
natural end), running the `remove` listener. -/
def readerClose (rid : Nat) (s : Sys) : Sys :=
  removeHandler rid s

/-- The `fs.close` issued by `_destroy` completes with result `closeErr`; the
nested `fs.unlink` is issued, remembering both the close result and the
original destroy error. -/
def closeDone (closeErr : Option Err) (s : Sys) : Sys :=
  match s.closePending with
  | some e =>
    { s with fdOpen := if closeErr.isNone then false else s.fdOpen
             closePending := none
             unlinkPending := some (closeErr, e) }
  | none => s

/-- The `fs.unlink` issued by `_destroy` completes with result `unlinkErr`:
`_fd` is cleared, the cleanup thunk is deleted from `cleanupCalls` and
dropped, and the completion callback receives
`unlinkError || closeError || error`. -/
def unlinkDone (unlinkErr : Option Err) (s : Sys) : Sys :=
  match s.unlinkPending with
  | some (closeErr, e) =>
    let s1 :=
      { s with fileOnDisk := if unlinkErr.isNone then false else s.fileOnDisk
               fd := none
               unlinkPending := none
               destroyCbArg := some (jsOr unlinkErr (jsOr closeErr e)) }
    match s1.cleanup with
    | some f => { s1 with cleanupCalls := s1.cleanupCalls.erase f, cleanup := none }
    | none => s1
  | none => s

/-- The state produced by `new WriteStream()`: everything empty, the
asynchronous path-generation and file-creation in flight. -/
def Sys.start : Sys :=
  { fd := none, filePath := none, pos := 0, readStreams := [], released := false
    cleanup := none, destroyed := false, finished := false
    destroyDeferred := none, writeDeferred := none, openPending := true
    writeSysPending := none, writeCbPending := none, closePending := none
    unlinkPending := none, destroyCbArg := none
    disk := [], fileOnDisk := false, fdOpen := false
    cleanupCalls := [], exitListenerRegistered := false, exitListeners := 0
    readers := [], nextId := 0 }

/-- One step of the event loop.  User-facing calls (`_write`, finish,
`release`, `destroy`, `createReadStream`, `_read`, reader destruction) and
asynchronous completions interleave arbitrarily; the preconditions encode only
what the Node stream machinery guarantees: `_write` calls are serialized and
stop once the writable has ended, `finish` fires only after every write
completed, `_read` is called with a positive size and never re-entered while a
pull is outstanding, and `fs.read` completions require the descriptor to still
be open. -/
inductive Step : Sys → Sys → Prop where
  | openDone (s : Sys) (p fdv : Nat) (h : s.openPending = true) :
      Step s (openComplete p fdv s)
  | writeCall (s : Sys) (c : List Nat) (h1 : s.writeSysPending = none)
      (h2 : s.writeCbPending = none) (h3 : s.finished = false)
      (h4 : s.writeDeferred = none) :
      Step s (writeImpl c s)
  | writeSysCompletes (s : Sys) (h : s.writeSysPending ≠ none) :
      Step s (writeSysDone s)
  | writeCbCompletes (s : Sys) (h : s.writeCbPending ≠ none) :
      Step s (writeCbDone s)
  | finishCall (s : Sys) (h1 : s.writeSysPending = none) (h2 : s.writeCbPending = none)
      (h3 : s.finished = false) (h4 : s.fd ≠ none) (h5 : s.writeDeferred = none) :
      Step s (finishWriter s)
  | readCall (s : Sys) (rid n : Nat) (r : Reader) (h0 : 0 < n)
      (hr : getReader s rid = some r) (h1 : r.readPending = none)
      (h2 : r.retryOnWrite = none) (h3 : r.retryOnFinish = none)
      (h4 : r.waitReady = none) :
      Step s (readStart rid n s)
  | readCompletes (s : Sys) (rid n : Nat) (r : Reader)
      (hr : getReader s rid = some r) (h1 : r.readPending = some n)
      (h2 : s.fdOpen = true) :
      Step s (readDone rid s)
  | releaseCall (s : Sys) :
      Step s (release s)
  | destroyCall (s : Sys) (e : Option Err) :
      Step s (destroyWS e s)
  | createCall (s s2 : Sys) (rid : Nat) (h : createReadStream s = .ok (s2, rid)) :
      Step s s2
  | readerDestroyCall (s : Sys) (rid : Nat) (e : Option Err) :
      Step s (readerDestroy rid e s)
  | readerCloseEvent (s : Sys) (rid : Nat) (r : Reader)
      (h1 : s.readStreams.contains rid = true)
      (hr : getReader s rid = some r) (h2 : r.destroyed = true ∨ r.ended = true) :
      Step s (readerClose rid s)
  | closeCompletes (s : Sys) (ce : Option Err) (h : s.closePending ≠ none) :
      Step s (closeDone ce s)
  | unlinkCompletes (s : Sys) (ue : Option Err) (h : s.unlinkPending ≠ none) :
      Step s (unlinkDone ue s)

/-- Writer-side invariant relating the acknowledged `_pos` to the bytes on
disk: an `fs.write` in flight was issued at the current position with the file
exactly `_pos` bytes long; a completed-but-unacknowledged write has put its
chunk on disk past `_pos`; with no write in flight the file is exactly `_pos`
bytes; a finished writer has no write in flight; and before the file is open
nothing has been written. -/
def WInv (s : Sys) : Prop :=
  (∀ p c, s.writeSysPending = some (p, c) →
    p = s.pos ∧ s.disk.length = s.pos ∧ s.writeCbPending = none) ∧
  (∀ p c, s.writeCbPending = some (p, c) →
    p = s.pos ∧ s.disk.length = s.pos + c.length ∧ s.writeSysPending = none) ∧
  (s.writeSysPending = none → s.writeCbPending = none → s.disk.length = s.pos) ∧
  (s.finished = true → s.writeSysPending = none ∧ s.writeCbPending = none) ∧
  (s.openPending = true →
    s.fd = none ∧ s.finished = false ∧ s.pos = 0 ∧ s.disk = [] ∧
    s.writeSysPending = none ∧ s.writeCbPending = none)

/-- A concrete writer that has finished opening (descriptor 3, path 1) with
two bytes written and acknowledged and no readers. -/
def sBase : Sys :=
  { Sys.start with fd := some 3, filePath := some 1, openPending := false
                   fileOnDisk := true, fdOpen := true
                   pos := 2, disk := [10, 11]
                   cleanup := some { fd := 3, path := 1 }
                   cleanupCalls := [{ fd := 3, path := 1 }]
                   exitListenerRegistered := true, exitListeners := 1 }

/-- State `sBase` with one attached, idle read stream (identity 0). -/
def sOne : Sys :=
  { sBase with readers := [(0, Reader.start)], readStreams := [0], nextId := 1 }

/-- State `sBase` with two attached read streams (identities 0 and 1) and one
previously detached read stream (identity 2, no longer in `_readStreams`). -/
def sTwo : Sys :=
  { sBase with readers := [(0, Reader.start), (1, Reader.start), (2, Reader.start)]
               readStreams := [0, 1], nextId := 3 }

/-- A writer with an `fs.write` of the second byte acknowledged by the disk
but its callback not yet run: `_pos` is still 1 while the file already holds
2 bytes.  Reader 0 has an `fs.read` of 2 bytes in flight. -/
def sInflight : Sys :=
  { sBase with pos := 1, writeCbPending := some (1, [11])
               readers := [(0, { Reader.start with readPending := some 2 })]
               readStreams := [0], nextId := 1 }

/-- A finished writer whose reader 0 has consumed both bytes and has an
`fs.read` of 4 bytes in flight (the pull that will discover end-of-data). -/
def sFin : Sys :=
  { sBase with finished := true
               readers := [(0, { Reader.start with pos := 2, readPending := some 4 })]
               readStreams := [0], nextId := 1 }

/-- An unfinished writer whose reader 0 got a zero-byte read and is suspended
with the `retry` listener registered on both `"write"` and `"finish"`. -/
def sRetry : Sys :=
  { sBase with readers := [(0, { Reader.start with pos := 2, retryOnWrite := some 4
                                                   retryOnFinish := some 4 })]
               readStreams := [0], nextId := 1 }

/-- A writer in the middle of `_destroy` (destroy error 7): the close has
completed with error 5 and the unlink is in flight. -/
def sUnlinking : Sys :=
  { sBase with destroyed := true, unlinkPending := some (some 5, some 7) }

/-- The completed run of a destroy that was requested before the file had
finished opening: the open completes (releasing the deferred `_destroy`
through the `"ready"` event), then the close and the unlink it issued both
complete successfully. -/
def lateDestroyRun (e : Option Err) (p fdv : Nat) (s : Sys) : Sys :=
  unlinkDone none (closeDone none (openComplete p fdv (destroyWS e s)))

end FsCapacitor

namespace FsCapacitor

theorem find_map_snd (g : Nat → Reader → Reader) (l : List (Nat × Reader)) (rid : Nat) :
    ((l.map (fun q => (q.1, g q.1 q.2))).find? (fun q => q.1 == rid)).map Prod.snd
      = ((l.find? (fun q => q.1 == rid)).map Prod.snd).map (g rid) := by
  induction l with
  | nil => rfl
  | cons a t ih =>
    cases h : (a.1 == rid) with
    | true =>
      have ha : a.1 = rid := by simpa using h
      simp [List.find?_cons, h, ha]
    | false =>
      simpa [List.find?_cons, h] using ih

theorem getReader_mapReaders (g : Nat → Reader → Reader) (s : Sys) (rid : Nat) :
    getReader (mapReaders g s) rid = (getReader s rid).map (g rid) := by
  unfold getReader mapReaders
  exact find_map_snd g s.readers rid

theorem getReader_update_self (rid : Nat) (f : Reader → Reader) (s : Sys) :
    getReader (updateReader rid f s) rid = (getReader s rid).map f := by
  unfold updateReader
  rw [getReader_mapReaders]
  cases getReader s rid <;> simp

theorem getReader_update_ne (rid j : Nat) (f : Reader → Reader) (s : Sys) (h : j ≠ rid) :
    getReader (updateReader rid f s) j = getReader s j := by
  unfold updateReader
  rw [getReader_mapReaders]
  cases getReader s j <;> simp [h]

end FsCapacitor

namespace FsCapacitor

@[simp] theorem mapReaders_fd (g : Nat → Reader → Reader) (s : Sys) : (mapReaders g s).fd = s.fd := rfl
@[simp] theorem mapReaders_pos (g : Nat → Reader → Reader) (s : Sys) : (mapReaders g s).pos = s.pos := rfl
@[simp] theorem mapReaders_disk (g : Nat → Reader → Reader) (s : Sys) : (mapReaders g s).disk = s.disk := rfl
@[simp] theorem mapReaders_finished (g : Nat → Reader → Reader) (s : Sys) : (mapReaders g s).finished = s.finished := rfl
@[simp] theorem mapReaders_openPending (g : Nat → Reader → Reader) (s : Sys) : (mapReaders g s).openPending = s.openPending := rfl
@[simp] theorem mapReaders_writeSysPending (g : Nat → Reader → Reader) (s : Sys) : (mapReaders g s).writeSysPending = s.writeSysPending := rfl
@[simp] theorem mapReaders_writeCbPending (g : Nat → Reader → Reader) (s : Sys) : (mapReaders g s).writeCbPending = s.writeCbPending := rfl
@[simp] theorem mapReaders_closePending (g : Nat → Reader → Reader) (s : Sys) : (mapReaders g s).closePending = s.closePending := rfl
@[simp] theorem mapReaders_unlinkPending (g : Nat → Reader → Reader) (s : Sys) : (mapReaders g s).unlinkPending = s.unlinkPending := rfl
@[simp] theorem mapReaders_destroyCbArg (g : Nat → Reader → Reader) (s : Sys) : (mapReaders g s).destroyCbArg = s.destroyCbArg := rfl
@[simp] theorem mapReaders_readStreams (g : Nat → Reader → Reader) (s : Sys) : (mapReaders g s).readStreams = s.readStreams := rfl
@[simp] theorem mapReaders_released (g : Nat → Reader → Reader) (s : Sys) : (mapReaders g s).released = s.released := rfl
@[simp] theorem mapReaders_destroyed (g : Nat → Reader → Reader) (s : Sys) : (mapReaders g s).destroyed = s.destroyed := rfl
@[simp] theorem mapReaders_fdOpen (g : Nat → Reader → Reader) (s : Sys) : (mapReaders g s).fdOpen = s.fdOpen := rfl
@[simp] theorem mapReaders_fileOnDisk (g : Nat → Reader → Reader) (s : Sys) : (mapReaders g s).fileOnDisk = s.fileOnDisk := rfl
@[simp] theorem mapReaders_cleanupCalls (g : Nat → Reader → Reader) (s : Sys) : (mapReaders g s).cleanupCalls = s.cleanupCalls := rfl
@[simp] theorem mapReaders_cleanup (g : Nat → Reader → Reader) (s : Sys) : (mapReaders g s).cleanup = s.cleanup := rfl
@[simp] theorem mapReaders_writeDeferred (g : Nat → Reader → Reader) (s : Sys) : (mapReaders g s).writeDeferred = s.writeDeferred := rfl
@[simp] theorem mapReaders_destroyDeferred (g : Nat → Reader → Reader) (s : Sys) : (mapReaders g s).destroyDeferred = s.destroyDeferred := rfl

@[simp] theorem writeImpl_pos (c : List Nat) (s : Sys) : (writeImpl c s).pos = s.pos := by
  unfold writeImpl; cases s.fd <;> rfl
@[simp] theorem writeImpl_disk (c : List Nat) (s : Sys) : (writeImpl c s).disk = s.disk := by
  unfold writeImpl; cases s.fd <;> rfl
@[simp] theorem writeImpl_fd (c : List Nat) (s : Sys) : (writeImpl c s).fd = s.fd := by
  unfold writeImpl; cases s.fd <;> rfl
@[simp] theorem writeImpl_finished (c : List Nat) (s : Sys) : (writeImpl c s).finished = s.finished := by
  unfold writeImpl; cases s.fd <;> rfl
@[simp] theorem writeImpl_openPending (c : List Nat) (s : Sys) : (writeImpl c s).openPending = s.openPending := by
  unfold writeImpl; cases s.fd <;> rfl
@[simp] theorem writeImpl_writeCbPending (c : List Nat) (s : Sys) : (writeImpl c s).writeCbPending = s.writeCbPending := by
  unfold writeImpl; cases s.fd <;> rfl
@[simp] theorem writeImpl_closePending (c : List Nat) (s : Sys) : (writeImpl c s).closePending = s.closePending := by
  unfold writeImpl; cases s.fd <;> rfl
@[simp] theorem writeImpl_readers (c : List Nat) (s : Sys) : (writeImpl c s).readers = s.readers := by
  unfold writeImpl; cases s.fd <;> rfl
@[simp] theorem writeImpl_readStreams (c : List Nat) (s : Sys) : (writeImpl c s).readStreams = s.readStreams := by
  unfold writeImpl; cases s.fd <;> rfl
@[simp] theorem writeImpl_destroyed (c : List Nat) (s : Sys) : (writeImpl c s).destroyed = s.destroyed := by
  unfold writeImpl; cases s.fd <;> rfl
@[simp] theorem writeImpl_cleanupCalls (c : List Nat) (s : Sys) : (writeImpl c s).cleanupCalls = s.cleanupCalls := by
  unfold writeImpl; cases s.fd <;> rfl
@[simp] theorem writeImpl_fdOpen (c : List Nat) (s : Sys) : (writeImpl c s).fdOpen = s.fdOpen := by
  unfold writeImpl; cases s.fd <;> rfl
@[simp] theorem writeImpl_fileOnDisk (c : List Nat) (s : Sys) : (writeImpl c s).fileOnDisk = s.fileOnDisk := by
  unfold writeImpl; cases s.fd <;> rfl

@[simp] theorem destroyImpl_pos (e : Option Err) (s : Sys) : (destroyImpl e s).pos = s.pos := by
  unfold destroyImpl; split <;> rfl
@[simp] theorem destroyImpl_disk (e : Option Err) (s : Sys) : (destroyImpl e s).disk = s.disk := by
  unfold destroyImpl; split <;> rfl
@[simp] theorem destroyImpl_fd (e : Option Err) (s : Sys) : (destroyImpl e s).fd = s.fd := by
  unfold destroyImpl; split <;> rfl
@[simp] theorem destroyImpl_finished (e : Option Err) (s : Sys) : (destroyImpl e s).finished = s.finished := by
  unfold destroyImpl; split <;> rfl
@[simp] theorem destroyImpl_openPending (e : Option Err) (s : Sys) : (destroyImpl e s).openPending = s.openPending := by
  unfold destroyImpl; split <;> rfl
@[simp] theorem destroyImpl_writeSysPending (e : Option Err) (s : Sys) : (destroyImpl e s).writeSysPending = s.writeSysPending := by
  unfold destroyImpl; split <;> rfl
@[simp] theorem destroyImpl_writeCbPending (e : Option Err) (s : Sys) : (destroyImpl e s).writeCbPending = s.writeCbPending := by
  unfold destroyImpl; split <;> rfl
@[simp] theorem destroyImpl_readStreams (e : Option Err) (s : Sys) : (destroyImpl e s).readStreams = s.readStreams := by
  unfold destroyImpl; split <;> rfl
@[simp] theorem destroyImpl_released (e : Option Err) (s : Sys) : (destroyImpl e s).released = s.released := by
  unfold destroyImpl; split <;> rfl
@[simp] theorem destroyImpl_fdOpen (e : Option Err) (s : Sys) : (destroyImpl e s).fdOpen = s.fdOpen := by
  unfold destroyImpl; split <;> rfl
@[simp] theorem destroyImpl_fileOnDisk (e : Option Err) (s : Sys) : (destroyImpl e s).fileOnDisk = s.fileOnDisk := by
  unfold destroyImpl; split <;> rfl
@[simp] theorem destroyImpl_cleanupCalls (e : Option Err) (s : Sys) : (destroyImpl e s).cleanupCalls = s.cleanupCalls := by
  unfold destroyImpl; split <;> rfl
@[simp] theorem destroyImpl_writeDeferred (e : Option Err) (s : Sys) : (destroyImpl e s).writeDeferred = s.writeDeferred := by
  unfold destroyImpl; split <;> rfl

@[simp] theorem destroyWS_pos (e : Option Err) (s : Sys) : (destroyWS e s).pos = s.pos := by
  unfold destroyWS; split <;> simp
@[simp] theorem destroyWS_disk (e : Option Err) (s : Sys) : (destroyWS e s).disk = s.disk := by
  unfold destroyWS; split <;> simp
@[simp] theorem destroyWS_fd (e : Option Err) (s : Sys) : (destroyWS e s).fd = s.fd := by
  unfold destroyWS; split <;> simp
@[simp] theorem destroyWS_finished (e : Option Err) (s : Sys) : (destroyWS e s).finished = s.finished := by
  unfold destroyWS; split <;> simp
@[simp] theorem destroyWS_openPending (e : Option Err) (s : Sys) : (destroyWS e s).openPending = s.openPending := by
  unfold destroyWS; split <;> simp
@[simp] theorem destroyWS_writeSysPending (e : Option Err) (s : Sys) : (destroyWS e s).writeSysPending = s.writeSysPending := by
  unfold destroyWS; split <;> simp
@[simp] theorem destroyWS_writeCbPending (e : Option Err) (s : Sys) : (destroyWS e s).writeCbPending = s.writeCbPending := by
  unfold destroyWS; split <;> simp
@[simp] theorem destroyWS_readStreams (e : Option Err) (s : Sys) : (destroyWS e s).readStreams = s.readStreams := by
  unfold destroyWS; split <;> simp
@[simp] theorem destroyWS_released (e : Option Err) (s : Sys) : (destroyWS e s).released = s.released := by
  unfold destroyWS; split <;> simp
@[simp] theorem destroyWS_fdOpen (e : Option Err) (s : Sys) : (destroyWS e s).fdOpen = s.fdOpen := by
  unfold destroyWS; split <;> simp
@[simp] theorem destroyWS_fileOnDisk (e : Option Err) (s : Sys) : (destroyWS e s).fileOnDisk = s.fileOnDisk := by
  unfold destroyWS; split <;> simp

@[simp] theorem release_pos (s : Sys) : (release s).pos = s.pos := by
  simp only [release]; split <;> simp
@[simp] theorem release_disk (s : Sys) : (release s).disk = s.disk := by
  simp only [release]; split <;> simp
@[simp] theorem release_fd (s : Sys) : (release s).fd = s.fd := by
  simp only [release]; split <;> simp
@[simp] theorem release_finished (s : Sys) : (release s).finished = s.finished := by
  simp only [release]; split <;> simp
@[simp] theorem release_openPending (s : Sys) : (release s).openPending = s.openPending := by
  simp only [release]; split <;> simp
@[simp] theorem release_writeSysPending (s : Sys) : (release s).writeSysPending = s.writeSysPending := by
  simp only [release]; split <;> simp
@[simp] theorem release_writeCbPending (s : Sys) : (release s).writeCbPending = s.writeCbPending := by
  simp only [release]; split <;> simp
@[simp] theorem release_fdOpen (s : Sys) : (release s).fdOpen = s.fdOpen := by
  simp only [release]; split <;> simp
@[simp] theorem release_fileOnDisk (s : Sys) : (release s).fileOnDisk = s.fileOnDisk := by
  simp only [release]; split <;> simp

@[simp] theorem removeHandler_pos (rid : Nat) (s : Sys) : (removeHandler rid s).pos = s.pos := by
  simp only [removeHandler]; split <;> simp
@[simp] theorem removeHandler_disk (rid : Nat) (s : Sys) : (removeHandler rid s).disk = s.disk := by
  simp only [removeHandler]; split <;> simp
@[simp] theorem removeHandler_fd (rid : Nat) (s : Sys) : (removeHandler rid s).fd = s.fd := by
  simp only [removeHandler]; split <;> simp
@[simp] theorem removeHandler_finished (rid : Nat) (s : Sys) : (removeHandler rid s).finished = s.finished := by
  simp only [removeHandler]; split <;> simp
@[simp] theorem removeHandler_openPending (rid : Nat) (s : Sys) : (removeHandler rid s).openPending = s.openPending := by
  simp only [removeHandler]; split <;> simp
@[simp] theorem removeHandler_writeSysPending (rid : Nat) (s : Sys) : (removeHandler rid s).writeSysPending = s.writeSysPending := by
  simp only [removeHandler]; split <;> simp
@[simp] theorem removeHandler_writeCbPending (rid : Nat) (s : Sys) : (removeHandler rid s).writeCbPending = s.writeCbPending := by
  simp only [removeHandler]; split <;> simp

end FsCapacitor

namespace FsCapacitor

@[simp] theorem emitWrite_pos (s : Sys) : (emitWrite s).pos = s.pos := rfl
@[simp] theorem emitWrite_disk (s : Sys) : (emitWrite s).disk = s.disk := rfl
@[simp] theorem emitWrite_fd (s : Sys) : (emitWrite s).fd = s.fd := rfl
@[simp] theorem emitWrite_finished (s : Sys) : (emitWrite s).finished = s.finished := rfl
@[simp] theorem emitWrite_openPending (s : Sys) : (emitWrite s).openPending = s.openPending := rfl
@[simp] theorem emitWrite_writeSysPending (s : Sys) : (emitWrite s).writeSysPending = s.writeSysPending := rfl
@[simp] theorem emitWrite_writeCbPending (s : Sys) : (emitWrite s).writeCbPending = s.writeCbPending := rfl
@[simp] theorem emitFinish_pos (s : Sys) : (emitFinish s).pos = s.pos := rfl
@[simp] theorem emitFinish_disk (s : Sys) : (emitFinish s).disk = s.disk := rfl
@[simp] theorem emitFinish_fd (s : Sys) : (emitFinish s).fd = s.fd := rfl
@[simp] theorem emitFinish_finished (s : Sys) : (emitFinish s).finished = s.finished := rfl
@[simp] theorem emitFinish_openPending (s : Sys) : (emitFinish s).openPending = s.openPending := rfl
@[simp] theorem emitFinish_writeSysPending (s : Sys) : (emitFinish s).writeSysPending = s.writeSysPending := rfl
@[simp] theorem emitFinish_writeCbPending (s : Sys) : (emitFinish s).writeCbPending = s.writeCbPending := rfl

@[simp] theorem emitReady_pos (s : Sys) : (emitReady s).pos = s.pos := by
  simp only [emitReady, mapReaders_pos]; split <;> split <;> simp
@[simp] theorem emitReady_disk (s : Sys) : (emitReady s).disk = s.disk := by
  simp only [emitReady, mapReaders_disk]; split <;> split <;> simp
@[simp] theorem emitReady_fd (s : Sys) : (emitReady s).fd = s.fd := by
  simp only [emitReady, mapReaders_fd]; split <;> split <;> simp
@[simp] theorem emitReady_finished (s : Sys) : (emitReady s).finished = s.finished := by
  simp only [emitReady, mapReaders_finished]; split <;> split <;> simp
@[simp] theorem emitReady_openPending (s : Sys) : (emitReady s).openPending = s.openPending := by
  simp only [emitReady, mapReaders_openPending]; split <;> split <;> simp
@[simp] theorem emitReady_fdOpen (s : Sys) : (emitReady s).fdOpen = s.fdOpen := by
  simp only [emitReady, mapReaders_fdOpen]; split <;> split <;> simp
@[simp] theorem emitReady_fileOnDisk (s : Sys) : (emitReady s).fileOnDisk = s.fileOnDisk := by
  simp only [emitReady, mapReaders_fileOnDisk]; split <;> split <;> simp
@[simp] theorem emitReady_readStreams (s : Sys) : (emitReady s).readStreams = s.readStreams := by
  simp only [emitReady, mapReaders_readStreams]; split <;> split <;> simp
@[simp] theorem emitReady_cleanupCalls (s : Sys) : (emitReady s).cleanupCalls = s.cleanupCalls := by
  simp only [emitReady, mapReaders_cleanupCalls]; split <;> split <;> simp
@[simp] theorem emitReady_destroyed (s : Sys) : (emitReady s).destroyed = s.destroyed := by
  simp only [emitReady, mapReaders_destroyed]; split <;> split <;>
    simp [destroyImpl, destroyAttachedReaders, writeImpl] <;> split <;> simp <;>
    try { split <;> simp }

@[simp] theorem openComplete_pos (p fdv : Nat) (s : Sys) : (openComplete p fdv s).pos = s.pos := by
  unfold openComplete; simp
@[simp] theorem openComplete_disk (p fdv : Nat) (s : Sys) : (openComplete p fdv s).disk = s.disk := by
  unfold openComplete; simp
@[simp] theorem openComplete_finished (p fdv : Nat) (s : Sys) : (openComplete p fdv s).finished = s.finished := by
  unfold openComplete; simp
@[simp] theorem openComplete_openPending (p fdv : Nat) (s : Sys) : (openComplete p fdv s).openPending = false := by
  unfold openComplete; simp
@[simp] theorem openComplete_fd (p fdv : Nat) (s : Sys) : (openComplete p fdv s).fd = some fdv := by
  unfold openComplete; simp

@[simp] theorem writeSysDone_pos (s : Sys) : (writeSysDone s).pos = s.pos := by
  unfold writeSysDone; split <;> rfl
@[simp] theorem writeSysDone_finished (s : Sys) : (writeSysDone s).finished = s.finished := by
  unfold writeSysDone; split <;> rfl
@[simp] theorem writeSysDone_openPending (s : Sys) : (writeSysDone s).openPending = s.openPending := by
  unfold writeSysDone; split <;> rfl
@[simp] theorem writeSysDone_fd (s : Sys) : (writeSysDone s).fd = s.fd := by
  unfold writeSysDone; split <;> rfl

@[simp] theorem finishWriter_pos (s : Sys) : (finishWriter s).pos = s.pos := rfl
@[simp] theorem finishWriter_disk (s : Sys) : (finishWriter s).disk = s.disk := rfl
@[simp] theorem finishWriter_finished (s : Sys) : (finishWriter s).finished = true := rfl
@[simp] theorem finishWriter_writeSysPending (s : Sys) : (finishWriter s).writeSysPending = s.writeSysPending := rfl
@[simp] theorem finishWriter_writeCbPending (s : Sys) : (finishWriter s).writeCbPending = s.writeCbPending := rfl
@[simp] theorem finishWriter_openPending (s : Sys) : (finishWriter s).openPending = s.openPending := rfl

@[simp] theorem readStart_pos (rid n : Nat) (s : Sys) : (readStart rid n s).pos = s.pos := rfl
@[simp] theorem readerDestroy_pos (rid : Nat) (e : Option Err) (s : Sys) : (readerDestroy rid e s).pos = s.pos := rfl
@[simp] theorem readerClose_pos (rid : Nat) (s : Sys) : (readerClose rid s).pos = s.pos := by
  simp [readerClose]

@[simp] theorem updateReader_pos (rid : Nat) (f : Reader → Reader) (s : Sys) : (updateReader rid f s).pos = s.pos := rfl
@[simp] theorem updateReader_disk (rid : Nat) (f : Reader → Reader) (s : Sys) : (updateReader rid f s).disk = s.disk := rfl
@[simp] theorem updateReader_fd (rid : Nat) (f : Reader → Reader) (s : Sys) : (updateReader rid f s).fd = s.fd := rfl
@[simp] theorem updateReader_finished (rid : Nat) (f : Reader → Reader) (s : Sys) : (updateReader rid f s).finished = s.finished := rfl
@[simp] theorem updateReader_openPending (rid : Nat) (f : Reader → Reader) (s : Sys) : (updateReader rid f s).openPending = s.openPending := rfl
@[simp] theorem updateReader_writeSysPending (rid : Nat) (f : Reader → Reader) (s : Sys) : (updateReader rid f s).writeSysPending = s.writeSysPending := rfl
@[simp] theorem updateReader_writeCbPending (rid : Nat) (f : Reader → Reader) (s : Sys) : (updateReader rid f s).writeCbPending = s.writeCbPending := rfl

@[simp] theorem readDone_pos (rid : Nat) (s : Sys) : (readDone rid s).pos = s.pos := by
  unfold readDone; dsimp only; (repeat' split) <;> simp
@[simp] theorem readDone_disk (rid : Nat) (s : Sys) : (readDone rid s).disk = s.disk := by
  unfold readDone; dsimp only; (repeat' split) <;> simp
@[simp] theorem readDone_finished (rid : Nat) (s : Sys) : (readDone rid s).finished = s.finished := by
  unfold readDone; dsimp only; (repeat' split) <;> simp

@[simp] theorem closeDone_pos (ce : Option Err) (s : Sys) : (closeDone ce s).pos = s.pos := by
  unfold closeDone; split <;> rfl
@[simp] theorem closeDone_disk (ce : Option Err) (s : Sys) : (closeDone ce s).disk = s.disk := by
  unfold closeDone; split <;> rfl
@[simp] theorem closeDone_finished (ce : Option Err) (s : Sys) : (closeDone ce s).finished = s.finished := by
  unfold closeDone; split <;> rfl
@[simp] theorem closeDone_openPending (ce : Option Err) (s : Sys) : (closeDone ce s).openPending = s.openPending := by
  unfold closeDone; split <;> rfl
@[simp] theorem closeDone_fd (ce : Option Err) (s : Sys) : (closeDone ce s).fd = s.fd := by
  unfold closeDone; split <;> rfl
@[simp] theorem closeDone_writeSysPending (ce : Option Err) (s : Sys) : (closeDone ce s).writeSysPending = s.writeSysPending := by
  unfold closeDone; split <;> rfl
@[simp] theorem closeDone_writeCbPending (ce : Option Err) (s : Sys) : (closeDone ce s).writeCbPending = s.writeCbPending := by
  unfold closeDone; split <;> rfl

@[simp] theorem unlinkDone_pos (ue : Option Err) (s : Sys) : (unlinkDone ue s).pos = s.pos := by
  simp only [unlinkDone]; (repeat' split) <;> rfl
@[simp] theorem unlinkDone_disk (ue : Option Err) (s : Sys) : (unlinkDone ue s).disk = s.disk := by
  simp only [unlinkDone]; (repeat' split) <;> rfl
@[simp] theorem unlinkDone_finished (ue : Option Err) (s : Sys) : (unlinkDone ue s).finished = s.finished := by
  simp only [unlinkDone]; (repeat' split) <;> rfl
@[simp] theorem unlinkDone_openPending (ue : Option Err) (s : Sys) : (unlinkDone ue s).openPending = s.openPending := by
  simp only [unlinkDone]; (repeat' split) <;> rfl
@[simp] theorem unlinkDone_writeSysPending (ue : Option Err) (s : Sys) : (unlinkDone ue s).writeSysPending = s.writeSysPending := by
  simp only [unlinkDone]; (repeat' split) <;> rfl
@[simp] theorem unlinkDone_writeCbPending (ue : Option Err) (s : Sys) : (unlinkDone ue s).writeCbPending = s.writeCbPending := by
  simp only [unlinkDone]; (repeat' split) <;> rfl

theorem writeCbDone_none (s : Sys) (h : s.writeCbPending = none) : writeCbDone s = s := by
  unfold writeCbDone; rw [h]

theorem writeCbDone_some (s : Sys) (p : Nat) (c : List Nat) (h : s.writeCbPending = some (p, c)) :
    writeCbDone s = emitWrite { s with pos := s.pos + c.length, writeCbPending := none } := by
  unfold writeCbDone; rw [h]

end FsCapacitor

namespace FsCapacitor

theorem WInv_of_core (s t : Sys)
    (h1 : t.writeSysPending = s.writeSysPending) (h2 : t.writeCbPending = s.writeCbPending)
    (h3 : t.pos = s.pos) (h4 : t.disk = s.disk) (h5 : t.finished = s.finished)
    (h6 : t.openPending = s.openPending) (h7 : t.fd = s.fd) (h : WInv s) : WInv t := by
  unfold WInv at h ⊢
  rw [h1, h2, h3, h4, h5, h6, h7]
  exact h

theorem WInv_mapReaders (g : Nat → Reader → Reader) (s : Sys) (h : WInv s) :
    WInv (mapReaders g s) :=
  WInv_of_core s (mapReaders g s) rfl rfl rfl rfl rfl rfl rfl h

theorem WInv_destroyImpl (e : Option Err) (s : Sys) (h : WInv s) : WInv (destroyImpl e s) :=
  WInv_of_core s (destroyImpl e s) (by simp) (by simp) (by simp) (by simp) (by simp) (by simp) (by simp) h

theorem WInv_destroyWS (e : Option Err) (s : Sys) (h : WInv s) : WInv (destroyWS e s) :=
  WInv_of_core s (destroyWS e s) (by simp) (by simp) (by simp) (by simp) (by simp) (by simp) (by simp) h

theorem WInv_release (s : Sys) (h : WInv s) : WInv (release s) :=
  WInv_of_core s (release s) (by simp) (by simp) (by simp) (by simp) (by simp) (by simp) (by simp) h

theorem WInv_removeHandler (rid : Nat) (s : Sys) (h : WInv s) : WInv (removeHandler rid s) :=
  WInv_of_core s (removeHandler rid s) (by simp) (by simp) (by simp) (by simp) (by simp) (by simp) (by simp) h

theorem WInv_readDone (rid : Nat) (s : Sys) (h : WInv s) : WInv (readDone rid s) := by
  refine WInv_of_core s (readDone rid s) ?_ ?_ ?_ ?_ ?_ ?_ ?_ h <;>
    (unfold readDone; dsimp only; (repeat' split) <;> simp)

theorem WInv_writeImpl (c : List Nat) (s : Sys) (h : WInv s)
    (h1 : s.writeSysPending = none) (h2 : s.writeCbPending = none) (h3 : s.finished = false) :
    WInv (writeImpl c s) := by
  unfold writeImpl
  cases hfd : s.fd with
  | none => exact WInv_of_core s _ rfl rfl rfl rfl rfl rfl (by simp [hfd]) h
  | some v =>
    obtain ⟨_, _, hc, _, he⟩ := h
    refine ⟨?_, ?_, ?_, ?_, ?_⟩
    · intro p ch hp
      simp only [Option.some.injEq, Prod.mk.injEq] at hp
      obtain ⟨hp1, hp2⟩ := hp
      exact ⟨hp1.symm, by simpa using hc h1 h2, by simpa using h2⟩
    · intro p ch hp
      rw [show ({ s with writeSysPending := some (s.pos, c) } : Sys).writeCbPending
            = s.writeCbPending from rfl, h2] at hp
      cases hp
    · intro hws
      cases hws
    · intro hf
      rw [show ({ s with writeSysPending := some (s.pos, c) } : Sys).finished
            = s.finished from rfl, h3] at hf
      cases hf
    · intro ho
      have := he ho
      rw [this.1] at hfd
      cases hfd

end FsCapacitor

namespace FsCapacitor

theorem writeAt_append (d : List Nat) (p : Nat) (c : List Nat) (h : p = d.length) :
    writeAt d p c = d ++ c := by
  subst h
  simp [writeAt, List.drop_eq_nil_of_le]

theorem WInv_emitWrite (s : Sys) (h : WInv s) : WInv (emitWrite s) := by
  unfold emitWrite; exact WInv_mapReaders _ _ h

theorem WInv_emitFinish (s : Sys) (h : WInv s) : WInv (emitFinish s) := by
  unfold emitFinish; exact WInv_mapReaders _ _ h

theorem WInv_readStart (rid n : Nat) (s : Sys) (h : WInv s) : WInv (readStart rid n s) :=
  WInv_of_core s _ rfl rfl rfl rfl rfl rfl rfl h

theorem WInv_readerDestroy (rid : Nat) (e : Option Err) (s : Sys) (h : WInv s) :
    WInv (readerDestroy rid e s) :=
  WInv_of_core s _ rfl rfl rfl rfl rfl rfl rfl h

theorem WInv_readerClose (rid : Nat) (s : Sys) (h : WInv s) : WInv (readerClose rid s) := by
  unfold readerClose; exact WInv_removeHandler rid s h

theorem WInv_closeDone (ce : Option Err) (s : Sys) (h : WInv s) : WInv (closeDone ce s) :=
  WInv_of_core s _ (by simp) (by simp) (by simp) (by simp) (by simp) (by simp) (by simp) h

theorem unlinkDone_fd_none (ue : Option Err) (s : Sys) (h : s.fd = none) :
    (unlinkDone ue s).fd = none := by
  simp only [unlinkDone]; (repeat' split) <;> simp [h]

theorem WInv_unlinkDone (ue : Option Err) (s : Sys) (h : WInv s) : WInv (unlinkDone ue s) := by
  obtain ⟨ha, hb, hc, hd, he⟩ := h
  refine ⟨?_, ?_, ?_, ?_, ?_⟩
  · intro p c hp
    rw [unlinkDone_writeSysPending] at hp
    have := ha p c hp
    simpa using this
  · intro p c hp
    rw [unlinkDone_writeCbPending] at hp
    have := hb p c hp
    simpa using this
  · intro h1 h2
    rw [unlinkDone_writeSysPending] at h1
    rw [unlinkDone_writeCbPending] at h2
    simpa using hc h1 h2
  · intro hf
    rw [unlinkDone_finished] at hf
    simpa using hd hf
  · intro ho
    rw [unlinkDone_openPending] at ho
    obtain ⟨f1, f2, f3, f4, f5, f6⟩ := he ho
    exact ⟨unlinkDone_fd_none ue s f1, by simpa using f2, by simpa using f3,
      by simpa using f4, by simpa using f5, by simpa using f6⟩

theorem WInv_writeSysDone (s : Sys) (h : WInv s) : WInv (writeSysDone s) := by
  unfold writeSysDone
  cases hws : s.writeSysPending with
  | none => exact h
  | some pc =>
    obtain ⟨p, c⟩ := pc
    obtain ⟨ha, hb, hc, hd, he⟩ := h
    obtain ⟨hp1, hp2, hp3⟩ := ha p c hws
    refine ⟨?_, ?_, ?_, ?_, ?_⟩
    · intro p' c' hp'
      cases hp'
    · intro p' c' hp'
      simp only [Option.some.injEq, Prod.mk.injEq] at hp'
      obtain ⟨hq1, hq2⟩ := hp'
      subst hq1
      subst hq2
      refine ⟨hp1, ?_, rfl⟩
      show (writeAt s.disk p c).length = s.pos + c.length
      rw [writeAt_append s.disk p c (by rw [hp2, hp1])]
      simp [hp2]
    · intro _ hcon
      cases hcon
    · intro hf
      have := (hd hf).1
      rw [hws] at this
      cases this
    · intro ho
      have := (he ho).2.2.2.2.1
      rw [hws] at this
      cases this

theorem WInv_writeCbDone (s : Sys) (h : WInv s) : WInv (writeCbDone s) := by
  unfold writeCbDone
  cases hwc : s.writeCbPending with
  | none => exact h
  | some pc =>
    obtain ⟨p, c⟩ := pc
    obtain ⟨ha, hb, hc, hd, he⟩ := h
    obtain ⟨hp1, hp2, hp3⟩ := hb p c hwc
    apply WInv_emitWrite
    refine ⟨?_, ?_, ?_, ?_, ?_⟩
    · intro p' c' hp'
      rw [show ({ s with pos := s.pos + c.length, writeCbPending := none } : Sys).writeSysPending
            = s.writeSysPending from rfl, hp3] at hp'
      cases hp'
    · intro p' c' hp'
      cases hp'
    · intro _ _
      exact hp2
    · intro hf
      have := (hd hf).2
      rw [hwc] at this
      cases this
    · intro ho
      have := (he ho).2.2.2.2.2
      rw [hwc] at this
      cases this

theorem WInv_finishWriter (s : Sys) (h : WInv s)
    (h1 : s.writeSysPending = none) (h2 : s.writeCbPending = none) (hfd : s.fd ≠ none) :
    WInv (finishWriter s) := by
  unfold finishWriter
  apply WInv_emitFinish
  refine ⟨?_, ?_, ?_, ?_, ?_⟩
  · intro p c hp
    rw [show ({ s with finished := true } : Sys).writeSysPending = s.writeSysPending from rfl,
      h1] at hp
    cases hp
  · intro p c hp
    rw [show ({ s with finished := true } : Sys).writeCbPending = s.writeCbPending from rfl,
      h2] at hp
    cases hp
  · intro _ _
    exact h.2.2.1 h1 h2
  · intro _
    exact ⟨h1, h2⟩
  · intro ho
    exact absurd (h.2.2.2.2 ho).1 hfd

end FsCapacitor

namespace FsCapacitor

theorem WInv_ready_construct (t : Sys) (hwc : t.writeCbPending = none) (hfin : t.finished = false)
    (hop : t.openPending = false) (hdp : t.disk.length = t.pos)
    (hws : ∀ p c, t.writeSysPending = some (p, c) → p = t.pos) : WInv t := by
  refine ⟨?_, ?_, ?_, ?_, ?_⟩
  · intro p c hp
    exact ⟨hws p c hp, hdp, hwc⟩
  · intro p c hp
    rw [hwc] at hp
    cases hp
  · intro _ _
    exact hdp
  · intro hf
    rw [hfin] at hf
    cases hf
  · intro hoo
    rw [hop] at hoo
    cases hoo

theorem WInv_openComplete (p fdv : Nat) (s : Sys) (h : WInv s) (ho : s.openPending = true) :
    WInv (openComplete p fdv s) := by
  obtain ⟨hfd, hfin, hpos, hdisk, hws, hwc⟩ := h.2.2.2.2 ho
  unfold openComplete emitReady
  dsimp only
  cases hwd : s.writeDeferred with
  | none =>
    dsimp only
    cases hdd : s.destroyDeferred with
    | none =>
      dsimp only
      apply WInv_mapReaders
      refine WInv_ready_construct _ (by simpa using hwc) (by simpa using hfin) rfl ?_ ?_
      · show s.disk.length = s.pos
        rw [hdisk, hpos]
        rfl
      · intro p' c' hp'
        exact absurd (by simpa using hp' : s.writeSysPending = some (p', c'))
          (by rw [hws]; intro hcon; cases hcon)
    | some e =>
      dsimp only
      apply WInv_mapReaders
      apply WInv_destroyImpl
      refine WInv_ready_construct _ (by simpa using hwc) (by simpa using hfin) rfl ?_ ?_
      · show s.disk.length = s.pos
        rw [hdisk, hpos]
        rfl
      · intro p' c' hp'
        exact absurd (by simpa using hp' : s.writeSysPending = some (p', c'))
          (by rw [hws]; intro hcon; cases hcon)
  | some c =>
    dsimp only [writeImpl]
    cases hdd : s.destroyDeferred with
    | none =>
      dsimp only
      apply WInv_mapReaders
      refine WInv_ready_construct _ (by simpa using hwc) (by simpa using hfin) rfl ?_ ?_
      · show s.disk.length = s.pos
        rw [hdisk, hpos]
        rfl
      · intro p' c' hp'
        have hq : (s.pos, c) = (p', c') := by simpa using hp'
        exact (congrArg Prod.fst hq).symm
    | some e =>
      dsimp only
      apply WInv_mapReaders
      apply WInv_destroyImpl
      refine WInv_ready_construct _ (by simpa using hwc) (by simpa using hfin) rfl ?_ ?_
      · show s.disk.length = s.pos
        rw [hdisk, hpos]
        rfl
      · intro p' c' hp'
        have hq : (s.pos, c) = (p', c') := by simpa using hp'
        exact (congrArg Prod.fst hq).symm

end FsCapacitor

namespace FsCapacitor

theorem WInv_start : WInv Sys.start := by
  refine ⟨?_, ?_, ?_, ?_, ?_⟩ <;> intro <;> simp [Sys.start]

theorem createReadStream_ok (s s2 : Sys) (rid : Nat) (h : createReadStream s = .ok (s2, rid)) :
    s.destroyed = false ∧ s.released = false ∧ rid = s.nextId ∧
    s2 = { s with readers := (s.nextId, Reader.start) :: s.readers
                  readStreams := s.nextId :: s.readStreams
                  nextId := s.nextId + 1 } := by
  unfold createReadStream at h
  by_cases h1 : s.destroyed = true
  · rw [if_pos h1] at h
    cases h
  · rw [if_neg h1] at h
    by_cases h2 : s.released = true
    · rw [if_pos h2] at h
      cases h
    · rw [if_neg h2] at h
      simp only [Except.ok.injEq, Prod.mk.injEq] at h
      obtain ⟨hs2, hrid⟩ := h
      exact ⟨by simpa using h1, by simpa using h2, hrid.symm, hs2.symm⟩

theorem WInv_pos_le_disk (s : Sys) (h : WInv s) : s.pos ≤ s.disk.length := by
  obtain ⟨ha, hb, hc, _, _⟩ := h
  cases hws : s.writeSysPending with
  | some pc =>
    obtain ⟨p, c⟩ := pc
    exact le_of_eq (ha p c hws).2.1.symm
  | none =>
    cases hwc : s.writeCbPending with
    | some pc =>
      obtain ⟨p, c⟩ := pc
      have := (hb p c hwc).2.1
      omega
    | none => exact le_of_eq (hc hws hwc).symm

end FsCapacitor

namespace FsCapacitor

/-- C8: the writer's `writeOffset` (`_pos`) never decreases across any step of
the system; it is mutated only by the completion of the `fs.write` callback in
`_write`, which advances it by exactly the chunk's length, and only once the
chunk's bytes are already on disk (the writer invariant places them there
before the advance); the `"write"` event is dispatched against the advanced
offset; and the invariant guarantees a reader observing `_pos` that the file
holds at least that many bytes. -/
theorem writeOffset_monotone_durable (s s2 : Sys) (hs : Step s s2) :
    (s.pos ≤ s2.pos) ∧
    (s2.pos ≠ s.pos → ∃ p c, s.writeCbPending = some (p, c) ∧ s2 = writeCbDone s ∧
      s2.pos = s.pos + c.length ∧ (WInv s → s.disk.length = s.pos + c.length)) ∧
    (WInv s → WInv s2) ∧
    (WInv s → s.pos ≤ s.disk.length) ∧
    (∀ p c, s.writeCbPending = some (p, c) →
      writeCbDone s = emitWrite { s with pos := s.pos + c.length, writeCbPending := none }) := by
  refine ⟨?_, ?_, ?_, fun hw => WInv_pos_le_disk s hw,
    fun p c hp => writeCbDone_some s p c hp⟩
  · cases hs with
    | openDone p fdv h => simp
    | writeCall c h1 h2 h3 h4 => simp
    | writeSysCompletes h => simp
    | writeCbCompletes h =>
      cases hwc : s.writeCbPending with
      | none => rw [writeCbDone_none s hwc]
      | some pc =>
        obtain ⟨p, c⟩ := pc
        rw [writeCbDone_some s p c hwc]
        simp
    | finishCall h1 h2 h3 h4 h5 => simp
    | readCall rid n r h0 hr h1 h2 h3 h4 => simp
    | readCompletes rid n r hr h1 h2 => simp
    | releaseCall => simp
    | destroyCall e => simp
    | createCall s2 rid h =>
      rw [(createReadStream_ok s s2 rid h).2.2.2]
    | readerDestroyCall rid e => simp
    | readerCloseEvent rid r h1 hr h2 => simp
    | closeCompletes ce h => simp
    | unlinkCompletes ue h => simp
  · cases hs with
    | writeCbCompletes h =>
      intro hne
      cases hwc : s.writeCbPending with
      | none =>
        rw [writeCbDone_none s hwc] at hne
        exact absurd rfl hne
      | some pc =>
        obtain ⟨p, c⟩ := pc
        refine ⟨p, c, rfl, rfl, ?_, fun hw => (hw.2.1 p c hwc).2.1⟩
        rw [writeCbDone_some s p c hwc]
        simp
    | openDone p fdv h => exact fun hne => absurd (by simp) hne
    | writeCall c h1 h2 h3 h4 => exact fun hne => absurd (by simp) hne
    | writeSysCompletes h => exact fun hne => absurd (by simp) hne
    | finishCall h1 h2 h3 h4 h5 => exact fun hne => absurd (by simp) hne
    | readCall rid n r h0 hr h1 h2 h3 h4 => exact fun hne => absurd (by simp) hne
    | readCompletes rid n r hr h1 h2 => exact fun hne => absurd (by simp) hne
    | releaseCall => exact fun hne => absurd (by simp) hne
    | destroyCall e => exact fun hne => absurd (by simp) hne
    | createCall s2 rid h =>
      exact fun hne => absurd (by rw [(createReadStream_ok s s2 rid h).2.2.2]) hne
    | readerDestroyCall rid e => exact fun hne => absurd (by simp) hne
    | readerCloseEvent rid r h1 hr h2 => exact fun hne => absurd (by simp) hne
    | closeCompletes ce h => exact fun hne => absurd (by simp) hne
    | unlinkCompletes ue h => exact fun hne => absurd (by simp) hne
  · cases hs with
    | openDone p fdv h => exact fun hw => WInv_openComplete p fdv s hw h
    | writeCall c h1 h2 h3 h4 => exact fun hw => WInv_writeImpl c s hw h1 h2 h3
    | writeSysCompletes h => exact fun hw => WInv_writeSysDone s hw
    | writeCbCompletes h => exact fun hw => WInv_writeCbDone s hw
    | finishCall h1 h2 h3 h4 h5 => exact fun hw => WInv_finishWriter s hw h1 h2 h4
    | readCall rid n r h0 hr h1 h2 h3 h4 => exact fun hw => WInv_readStart rid n s hw
    | readCompletes rid n r hr h1 h2 => exact fun hw => WInv_readDone rid s hw
    | releaseCall => exact fun hw => WInv_release s hw
    | destroyCall e => exact fun hw => WInv_destroyWS e s hw
    | createCall s2 rid h =>
      rw [(createReadStream_ok s s2 rid h).2.2.2]
      exact fun hw => WInv_of_core s _ rfl rfl rfl rfl rfl rfl rfl hw
    | readerDestroyCall rid e => exact fun hw => WInv_readerDestroy rid e s hw
    | readerCloseEvent rid r h1 hr h2 => exact fun hw => WInv_readerClose rid s hw
    | closeCompletes ce h => exact fun hw => WInv_closeDone ce s hw
    | unlinkCompletes ue h => exact fun hw => WInv_unlinkDone ue s hw

/-- C8 witness: the acknowledgement step of the in-flight write in
`sInflight` advances `_pos` from 1 to 2 and never decreases it. -/
theorem writeOffset_monotone_durable_witness :
    sInflight.pos ≤ (writeCbDone sInflight).pos ∧ (writeCbDone sInflight).pos = 2 :=
  ⟨(writeOffset_monotone_durable sInflight (writeCbDone sInflight)
      (Step.writeCbCompletes sInflight (by decide))).1, by decide⟩

end FsCapacitor

namespace FsCapacitor

@[simp] theorem destroyImpl_destroyed (e : Option Err) (s : Sys) :
    (destroyImpl e s).destroyed = s.destroyed := by
  unfold destroyImpl; split <;> rfl

@[simp] theorem destroyImpl_cleanup (e : Option Err) (s : Sys) :
    (destroyImpl e s).cleanup = s.cleanup := by
  unfold destroyImpl; split <;> rfl

theorem destroyWS_destroyed_of_not (e : Option Err) (s : Sys) (h : s.destroyed = false) :
    (destroyWS e s).destroyed = true := by
  unfold destroyWS
  rw [if_neg (by simp [h])]
  simp

theorem destroyWS_eq_of_ready (e : Option Err) (s : Sys) (f p : Nat)
    (hd : s.destroyed = false) (hfd : s.fd = some f) (hp : s.filePath = some p) :
    destroyWS e s
      = destroyAttachedReaders e { s with destroyed := true, closePending := some e } := by
  unfold destroyWS
  rw [if_neg (by simp [hd])]
  unfold destroyImpl
  rw [if_pos (by simp [hfd, hp])]

/-- C1 counterexample: `sOne` has reader 0 attached, and that reader never
detaches in this run; yet after an error-free `destroy()` and the completion
of the close and unlink it issued, the descriptor is closed, the temp file is
gone, and the reader was destroyed — destruction was not deferred the way
`release()` defers it (shown last: `release` issues no close at all). -/
theorem destroy_defers_like_release_counterexample :
    (unlinkDone none (closeDone none (destroyWS none sOne))).fdOpen = false ∧
    (unlinkDone none (closeDone none (destroyWS none sOne))).fileOnDisk = false ∧
    (unlinkDone none (closeDone none (destroyWS none sOne))).readStreams = [0] ∧
    (getReader (destroyWS none sOne) 0).map Reader.destroyed = some true ∧
    (release sOne).closePending = none ∧
    (release sOne).destroyed = false := by decide

/-- C1 (amended): calling `destroy()` without an error on a ready writer does
not defer destruction even when readers are attached: it immediately issues
the descriptor close (the unlink follows in its callback) and destroys every
attached reader; only `release()` defers, leaving the writer fully intact
apart from the `_released` flag while any reader remains attached. -/
theorem destroy_no_error_immediate (s : Sys) (f p : Nat)
    (hd : s.destroyed = false) (hfd : s.fd = some f) (hp : s.filePath = some p) :
    (destroyWS none s).closePending = some none ∧
    (∀ rid r, s.readStreams.contains rid = true → getReader s rid = some r →
      getReader (destroyWS none s) rid = some (readerDestroyR r none)) ∧
    (s.readStreams ≠ [] → release s = { s with released := true }) := by
  have hds := destroyWS_eq_of_ready none s f p hd hfd hp
  refine ⟨?_, ?_, ?_⟩
  · rw [hds]
    rfl
  · intro rid r hc hr
    rw [hds]
    unfold destroyAttachedReaders
    rw [getReader_mapReaders]
    rw [show getReader { s with destroyed := true, closePending := some none } rid
          = getReader s rid from rfl, hr]
    simp [hc]
    intro hmem
    exact absurd (by simpa using hc) hmem
  · intro hne
    simp only [release]
    rw [if_neg (by simpa [List.isEmpty_iff] using hne)]

/-- C1 (amended) witness: evaluated at `sOne` (descriptor 3, path 1, one
attached reader). -/
theorem destroy_no_error_immediate_witness :
    (destroyWS none sOne).closePending = some none ∧
    getReader (destroyWS none sOne) 0 = some (readerDestroyR Reader.start none) ∧
    release sOne = { sOne with released := true } := by
  have h := destroy_no_error_immediate sOne 3 1 (by decide) (by decide) (by decide)
  exact ⟨h.1, h.2.1 0 Reader.start (by decide) (by decide), h.2.2 (by decide)⟩

/-- C4: `release()` sets the released flag; with zero attached readers it
immediately begins destruction; with readers attached it does nothing else;
and the `remove` close-handler begins destruction at exactly the moment the
last attached reader detaches while released, and never earlier. -/
theorem release_defers_until_last_detach (s : Sys) (rid : Nat) :
    ((release s).released = true) ∧
    (s.readStreams = [] → s.destroyed = false → (release s).destroyed = true) ∧
    (s.readStreams ≠ [] → release s = { s with released := true }) ∧
    (s.released = true → s.destroyed = false → s.readStreams.erase rid = [] →
      (readerClose rid s).destroyed = true) ∧
    (s.released = false ∨ s.readStreams.erase rid ≠ [] →
      readerClose rid s = { s with readStreams := s.readStreams.erase rid }) := by
  refine ⟨?_, ?_, ?_, ?_, ?_⟩
  · simp only [release]
    split <;> simp
  · intro he hd
    simp only [release]
    rw [if_pos (by simp [he])]
    exact destroyWS_destroyed_of_not none _ (by simpa using hd)
  · intro hne
    simp only [release]
    rw [if_neg (by simpa [List.isEmpty_iff] using hne)]
  · intro hrel hd he
    unfold readerClose
    simp only [removeHandler]
    rw [if_pos (by simp [hrel, he])]
    exact destroyWS_destroyed_of_not none _ (by simpa using hd)
  · intro hor
    unfold readerClose
    simp only [removeHandler]
    rw [if_neg ?_]
    rcases hor with h1 | h2
    · simp [h1]
    · simp [List.isEmpty_iff, h2]

/-- C4 witness: releasing `sOne` (one attached reader) only marks the flag;
closing that last reader afterwards begins destruction. -/
theorem release_defers_until_last_detach_witness :
    (release sOne).released = true ∧
    release sOne = { sOne with released := true } ∧
    (readerClose 0 { sOne with released := true }).destroyed = true ∧
    readerClose 0 sOne = { sOne with readStreams := [] } := by
  have h1 := release_defers_until_last_detach sOne 0
  have h2 := release_defers_until_last_detach { sOne with released := true } 0
  refine ⟨h1.1, h1.2.2.1 (by decide), h2.2.2.2.1 rfl rfl (by decide), ?_⟩
  have h3 := h1.2.2.2.2 (Or.inl rfl)
  rw [h3]
  decide

/-- C5: destroying a ready writer with error `E` destroys every currently
attached reader with exactly the error value `E`, while a reader no longer in
`_readStreams` (detached before the call) is left untouched. -/
theorem error_fan_out (s : Sys) (E : Err) (f p : Nat)
    (hd : s.destroyed = false) (hfd : s.fd = some f) (hp : s.filePath = some p) :
    (∀ rid r, s.readStreams.contains rid = true → getReader s rid = some r →
      r.destroyed = false →
      getReader (destroyWS (some E) s) rid
        = some { r with destroyed := true, err := some E }) ∧
    (∀ rid r, s.readStreams.contains rid = false → getReader s rid = some r →
      getReader (destroyWS (some E) s) rid = some r) := by
  have hds := destroyWS_eq_of_ready (some E) s f p hd hfd hp
  constructor
  · intro rid r hc hr hrd
    rw [hds]
    unfold destroyAttachedReaders
    rw [getReader_mapReaders]
    rw [show getReader { s with destroyed := true, closePending := some (some E) } rid
          = getReader s rid from rfl, hr]
    simp [hc, readerDestroyR, hrd]
    intro hmem
    exact absurd (by simpa using hc) hmem
  · intro rid r hc hr
    rw [hds]
    unfold destroyAttachedReaders
    rw [getReader_mapReaders]
    rw [show getReader { s with destroyed := true, closePending := some (some E) } rid
          = getReader s rid from rfl, hr]
    simp [hc]
    intro hmem
    exact absurd hmem (by simpa using hc)

/-- C5 witness: destroying `sTwo` with error 9 hits attached readers 0 and 1
with error value 9 and leaves detached reader 2 untouched. -/
theorem error_fan_out_witness :
    getReader (destroyWS (some 9) sTwo) 0
      = some { Reader.start with destroyed := true, err := some 9 } ∧
    getReader (destroyWS (some 9) sTwo) 1
      = some { Reader.start with destroyed := true, err := some 9 } ∧
    getReader (destroyWS (some 9) sTwo) 2 = some Reader.start := by
  have h := error_fan_out sTwo 9 3 1 (by decide) (by decide) (by decide)
  exact ⟨h.1 0 Reader.start (by decide) (by decide) (by decide),
    h.1 1 Reader.start (by decide) (by decide) (by decide),
    h.2 2 Reader.start (by decide) (by decide)⟩

end FsCapacitor

namespace FsCapacitor

/-- C2 counterexample: in `sOne` the writer has acknowledged 2 bytes and
reader 0 is at offset 0, so `unread = 2`; a pull of 5 bytes issues an
`fs.read` for the full 5 bytes, not `min(5, 2) = 2`.  And in `sInflight` the
writer has acknowledged only `writeOffset = 1` while the file already holds 2
bytes from an in-flight write; the pending 2-byte read completes with 2 bytes
and moves the reader to offset 2 — past the acknowledged `writeOffset`. -/
theorem read_bounded_by_unread_counterexample :
    (getReader (readStart 0 5 sOne) 0).map Reader.readPending = some (some 5) ∧
    sOne.pos = 2 ∧
    (getReader (readDone 0 sInflight) 0).map Reader.pos = some 2 ∧
    sInflight.pos = 1 := by decide

/-- C2 (amended): `_read(n)` issues the disk read for the full `n` bytes at
the reader's offset, with no clamp to `unread`; its completion advances the
offset by `min(n, onDiskLength - offset)` — bounded by what the file actually
holds, not by the writer's acknowledged `writeOffset`.  Whenever the on-disk
length equals `writeOffset` (no write in flight), this is bounded by
`min(n, unread)` and the reader never moves past `writeOffset`; during an
in-flight write it can. -/
theorem read_advances_by_disk_bytes (s : Sys) (rid n : Nat) (r : Reader)
    (hr : getReader s rid = some r) (hrd : r.destroyed = false) (hfd : s.fd.isSome = true) :
    (getReader (readStart rid n s) rid = some { r with readPending := some n }) ∧
    (r.readPending = some n →
      (getReader (readDone rid s) rid).map Reader.pos
        = some (r.pos + min n (s.disk.length - r.pos))) ∧
    (r.readPending = some n → s.disk.length = s.pos → r.pos ≤ s.pos →
      ∀ r2, getReader (readDone rid s) rid = some r2 →
        r2.pos ≤ s.pos ∧ r2.pos - r.pos ≤ min n (s.pos - r.pos)) := by
  have hadv : r.readPending = some n →
      (getReader (readDone rid s) rid).map Reader.pos
        = some (r.pos + min n (s.disk.length - r.pos)) := by
    intro hp
    unfold readDone
    rw [hr]
    dsimp only
    rw [hp]
    dsimp only
    split
    · rw [getReader_update_self, hr]
      rfl
    · rename_i hk
      have hk0 : min n (s.disk.length - r.pos) = 0 := by omega
      split <;> (rw [getReader_update_self, hr]; simp [hk0])
  refine ⟨?_, hadv, ?_⟩
  · unfold readStart
    rw [getReader_update_self, hr]
    cases hfd2 : s.fd with
    | none =>
      rw [hfd2] at hfd
      cases hfd
    | some v =>
      simp only [Option.map_some']
      unfold readStartR
      rw [if_neg (by simp [hrd]), if_neg (by simp)]
  · intro hp hlen hle r2 hr2
    have hq := hadv hp
    rw [hr2] at hq
    simp only [Option.map_some', Option.some.injEq] at hq
    rw [hq, hlen]
    omega

/-- C2 (amended) witness: evaluated on `sInflight` — the read completion
advances reader 0 from offset 0 to offset 2 — and on the issuing side the
full request length is recorded. -/
theorem read_advances_by_disk_bytes_witness :
    (getReader (readDone 0 sInflight) 0).map Reader.pos = some 2 ∧
    getReader (readStart 0 2 sInflight) 0
      = some { Reader.start with readPending := some 2 } := by
  have h := read_advances_by_disk_bytes sInflight 0 2
    { Reader.start with readPending := some 2 } (by decide) (by decide) (by decide)
  exact ⟨(h.2.1 (by decide)).trans (by decide), h.1⟩

/-- C3: the `fs.read` callback signals end-of-data exactly when the writer is
finished and `unread = 0` (under the writer invariant the file then holds
exactly `writeOffset` bytes, so a zero-byte read means `readOffset` reached
`writeOffset`); with an unfinished writer it never signals end-of-data, and a
zero-byte read instead registers the `retry` listener on both the `"write"`
and the `"finish"` event; when either event fires, both registrations are
removed and the read of the same `n` bytes is re-issued. -/
theorem end_of_data_iff (s : Sys) (rid n : Nat) (r : Reader)
    (hw : WInv s) (hr : getReader s rid = some r) (hp : r.readPending = some n)
    (hn : 0 < n) (he : r.ended = false) :
    ((getReader (readDone rid s) rid).map Reader.ended = some true ↔
      (s.finished = true ∧ s.pos ≤ r.pos)) ∧
    (s.finished = false → (getReader (readDone rid s) rid).map Reader.ended = some false) ∧
    (s.finished = false → s.disk.length ≤ r.pos →
      getReader (readDone rid s) rid
        = some { r with retryOnWrite := some n, retryOnFinish := some n, readPending := none }) ∧
    (∀ t : Sys, ∀ r2 : Reader, ∀ v : Nat, getReader t rid = some r2 →
      r2.retryOnWrite = some n → r2.destroyed = false → t.fd = some v →
      getReader (emitWrite t) rid
        = some { r2 with retryOnWrite := none, retryOnFinish := none, readPending := some n }) ∧
    (∀ t : Sys, ∀ r2 : Reader, ∀ v : Nat, getReader t rid = some r2 →
      r2.retryOnFinish = some n → r2.destroyed = false → t.fd = some v →
      getReader (emitFinish t) rid
        = some { r2 with retryOnWrite := none, retryOnFinish := none, readPending := some n }) := by
  refine ⟨?_, ?_, ?_, ?_, ?_⟩
  · unfold readDone
    rw [hr]
    dsimp only
    rw [hp]
    dsimp only
    split
    · rename_i hk
      rw [getReader_update_self, hr]
      constructor
      · intro hcon
        simp [he] at hcon
      · rintro ⟨hf, hle⟩
        exfalso
        have hws := (hw.2.2.2.1 hf).1
        have hwc := (hw.2.2.2.1 hf).2
        have hdl : s.disk.length = s.pos := hw.2.2.1 hws hwc
        omega
    · rename_i hk
      split
      · rename_i hf
        rw [getReader_update_self, hr]
        have hws := (hw.2.2.2.1 hf).1
        have hwc := (hw.2.2.2.1 hf).2
        have hdl : s.disk.length = s.pos := hw.2.2.1 hws hwc
        simp only [Option.map_some', Option.some.injEq]
        constructor
        · intro _
          exact ⟨hf, by omega⟩
        · intro _
          trivial
      · rename_i hf
        rw [getReader_update_self, hr]
        constructor
        · intro hcon
          simp [he] at hcon
        · rintro ⟨hf2, _⟩
          exact absurd hf2 hf
  · intro hf
    unfold readDone
    rw [hr]
    dsimp only
    rw [hp]
    dsimp only
    split
    · rw [getReader_update_self, hr]
      simp [he]
    · rw [if_neg (by simp [hf])]
      rw [getReader_update_self, hr]
      simp [he]
  · intro hf hle
    unfold readDone
    rw [hr]
    dsimp only
    rw [hp]
    dsimp only
    rw [if_neg (by omega)]
    rw [if_neg (by simp [hf])]
    rw [getReader_update_self, hr]
    rfl
  · intro t r2 v hr2 hro hrd hfd
    unfold emitWrite
    rw [getReader_mapReaders, hr2]
    simp only [Option.map_some']
    rw [hro]
    simp [readStartR, hrd, hfd]
  · intro t r2 v hr2 hro hrd hfd
    unfold emitFinish
    rw [getReader_mapReaders, hr2]
    simp only [Option.map_some']
    rw [hro]
    simp [readStartR, hrd, hfd]

/-- C3 witness: in `sFin` (finished writer, both bytes consumed) the pending
read signals end-of-data; in `sRetry` the suspended reader is woken by a
`"write"` dispatch: both listeners are removed and the 4-byte read
re-issued. -/
theorem end_of_data_iff_witness :
    (getReader (readDone 0 sFin) 0).map Reader.ended = some true ∧
    getReader (emitWrite sRetry) 0
      = some { Reader.start with pos := 2, retryOnWrite := none, retryOnFinish := none
                                 readPending := some 4 } := by
  have hw : WInv sFin := by
    refine ⟨?_, ?_, ?_, ?_, ?_⟩
    · intro p c hp
      cases hp
    · intro p c hp
      cases hp
    · intro _ _
      decide
    · intro _
      exact ⟨rfl, rfl⟩
    · intro ho
      cases ho
  have h := end_of_data_iff sFin 0 4 { Reader.start with pos := 2, readPending := some 4 }
    hw (by decide) (by decide) (by decide) (by decide)
  refine ⟨h.1.mpr ⟨rfl, by decide⟩, ?_⟩
  exact (h.2.2.2.1 sRetry
    { Reader.start with pos := 2, retryOnWrite := some 4, retryOnFinish := some 4 } 3
    (by decide) (by decide) (by decide) (by decide)).trans (by decide)

end FsCapacitor

namespace FsCapacitor

theorem jsOr_eq_firstSome (a b c : Option Err) : jsOr a (jsOr b c) = firstSome [a, b, c] := by
  cases a <;> cases b <;> cases c <;> rfl

/-- C6: when the unlink issued by `_destroy` completes, the completion
callback receives `unlinkError || closeError || error` — the first non-null
of the unlink error, the close error and the original destroy error, in that
priority order; the close completion is what pairs the close error with the
original destroy error for the unlink stage. -/
theorem destroy_callback_priority (s : Sys) (ue ce e : Option Err)
    (h : s.unlinkPending = some (ce, e)) :
    (unlinkDone ue s).destroyCbArg = some (firstSome [ue, ce, e]) ∧
    (∀ e0 ce0, s.closePending = some e0 → (closeDone ce0 s).unlinkPending = some (ce0, e0)) := by
  constructor
  · unfold unlinkDone
    rw [h]
    dsimp only
    cases hcl : s.cleanup with
    | none =>
      rw [jsOr_eq_firstSome]
    | some f =>
      dsimp only
      rw [jsOr_eq_firstSome]
  · intro e0 ce0 hcp
    unfold closeDone
    rw [hcp]

/-- C6 witness: in `sUnlinking` the unlink is in flight carrying close error 5
and destroy error 7; an unlink success delivers close error 5 (the first
non-null in priority order). -/
theorem destroy_callback_priority_witness :
    (unlinkDone none sUnlinking).destroyCbArg = some (some 5) := by
  have h := destroy_callback_priority sUnlinking none (some 5) (some 7) (by decide)
  exact h.1.trans (by decide)

/-- C7: `createReadStream` throws `ReadAfterDestroyedError` exactly when the
writer is destroyed; with an undestroyed but released writer it throws
`ReadAfterReleasedError`; otherwise it returns a new `ReadStream` registered
in `_readStreams`. -/
theorem createReadStream_guard (s : Sys) :
    (s.destroyed = true → createReadStream s = .error .readAfterDestroyed) ∧
    (s.destroyed = false → s.released = true →
      createReadStream s = .error .readAfterReleased) ∧
    (s.destroyed = false → s.released = false →
      createReadStream s
        = .ok ({ s with readers := (s.nextId, Reader.start) :: s.readers
                        readStreams := s.nextId :: s.readStreams
                        nextId := s.nextId + 1 }, s.nextId) ∧
      (s.nextId :: s.readStreams).contains s.nextId = true ∧
      getReader { s with readers := (s.nextId, Reader.start) :: s.readers
                         readStreams := s.nextId :: s.readStreams
                         nextId := s.nextId + 1 } s.nextId = some Reader.start) := by
  refine ⟨?_, ?_, ?_⟩
  · intro hd
    unfold createReadStream
    rw [if_pos hd]
  · intro hd hr
    unfold createReadStream
    rw [if_neg (by simp [hd]), if_pos hr]
  · intro hd hr
    refine ⟨?_, by simp, ?_⟩
    · unfold createReadStream
      rw [if_neg (by simp [hd]), if_neg (by simp [hr])]
    · unfold getReader
      simp [List.find?_cons]

/-- C7 witness: evaluated on `sBase` and its destroyed and released
variants. -/
theorem createReadStream_guard_witness :
    createReadStream { sBase with destroyed := true } = .error .readAfterDestroyed ∧
    createReadStream { sBase with released := true } = .error .readAfterReleased ∧
    createReadStream sBase
      = .ok ({ sBase with readers := (sBase.nextId, Reader.start) :: sBase.readers
                          readStreams := sBase.nextId :: sBase.readStreams
                          nextId := sBase.nextId + 1 }, sBase.nextId) :=
  ⟨(createReadStream_guard { sBase with destroyed := true }).1 rfl,
    (createReadStream_guard { sBase with released := true }).2.1 rfl rfl,
    ((createReadStream_guard sBase).2.2 rfl rfl).1⟩

theorem applyRegOps_count (ops : List RegOp) (r0 : Registry)
    (h : r0.exitListeners = if r0.exitListenerRegistered then 1 else 0) :
    (ops.foldl applyRegOp r0).exitListeners
      = if (ops.foldl applyRegOp r0).exitListenerRegistered then 1 else 0 := by
  induction ops generalizing r0 with
  | nil => exact h
  | cons op t ih =>
    apply ih
    cases op with
    | openWriter f =>
      simp only [applyRegOp, addWriterCleanup, registerExitListener]
      split
      · rename_i hreg
        simpa [hreg] using h
      · rename_i hreg
        simp only [Bool.not_eq_true] at hreg
        simp [hreg] at h
        simp [h]
    | runHook f => exact h
    | unregister f => exact h

theorem applyRegOps_no_open (ops : List RegOp) (r0 : Registry)
    (h : ∀ g, RegOp.openWriter g ∉ ops) :
    (ops.foldl applyRegOp r0).exitListeners = r0.exitListeners := by
  induction ops generalizing r0 with
  | nil => rfl
  | cons op t ih =>
    cases op with
    | openWriter f => exact absurd (List.mem_cons_self _ _) (h f)
    | runHook f =>
      rw [List.foldl_cons]
      exact ih _ (fun g hg => h g (List.mem_cons_of_mem _ hg))
    | unregister f =>
      rw [List.foldl_cons]
      exact ih _ (fun g hg => h g (List.mem_cons_of_mem _ hg))

/-- C9: over any sequence of registry operations the process exit hook is
installed at most once (and not at all if no writer ever opened — it is
lazy); and a cleanup thunk is a function of its `{fd, path}` pair alone: when
run it performs `cleanupSync` of that pair and deletes itself from
`cleanupCalls`, so a completed writer leaves no registry entry behind. -/
theorem exit_hook_once_minimal (ops : List RegOp) (f : File) (r : Registry) (os : OsState) :
    ((applyRegOps ops).exitListeners ≤ 1) ∧
    ((∀ g, RegOp.openWriter g ∉ ops) → (applyRegOps ops).exitListeners = 0) ∧
    (runCleanupFn f (r, os)
      = ({ r with cleanupCalls := r.cleanupCalls.erase f }, cleanupSync f os)) := by
  refine ⟨?_, ?_, rfl⟩
  · have h := applyRegOps_count ops Registry.start rfl
    unfold applyRegOps
    rw [h]
    split <;> omega
  · intro hno
    exact applyRegOps_no_open ops Registry.start hno

/-- C9 witness: two writers opening install exactly one exit listener; running
the first writer's thunk removes exactly its entry. -/
theorem exit_hook_once_minimal_witness :
    (applyRegOps [RegOp.openWriter { fd := 3, path := 1 },
      RegOp.openWriter { fd := 4, path := 2 }]).exitListeners ≤ 1 ∧
    (applyRegOps [RegOp.openWriter { fd := 3, path := 1 },
      RegOp.openWriter { fd := 4, path := 2 }]).exitListeners = 1 ∧
    runCleanupFn { fd := 3, path := 1 }
        ({ cleanupCalls := [{ fd := 3, path := 1 }], exitListenerRegistered := true
           exitListeners := 1 }, { openFds := [3, 4], paths := [1, 2] })
      = ({ cleanupCalls := [], exitListenerRegistered := true, exitListeners := 1 },
          { openFds := [4], paths := [2] }) := by
  refine ⟨(exit_hook_once_minimal [RegOp.openWriter { fd := 3, path := 1 },
    RegOp.openWriter { fd := 4, path := 2 }] { fd := 3, path := 1 }
    Registry.start { openFds := [], paths := [] }).1, by decide, by decide⟩

end FsCapacitor

namespace FsCapacitor

/-- C10: a `destroy(e)` issued while the descriptor and path are still
unassigned closes and unlinks nothing and merely queues itself on
`once("ready")`; when the in-flight open completes, the `"ready"` dispatch
runs the deferred `_destroy`, which issues the close (the registry entry
created by the open is present at that point); and once the close and unlink
complete, the descriptor is closed, the file created by the open is gone, the
registry entry is removed again, and the completion callback receives the
original error — the freshly created file is cleaned up, not leaked. -/
theorem destroy_before_ready_deferred (s : Sys) (e : Option Err) (p fdv : Nat)
    (ho : s.openPending = true) (hd : s.destroyed = false) (hfd : s.fd = none)
    (hwd : s.writeDeferred = none) (hcp : s.closePending = none) :
    ((destroyWS e s).closePending = none ∧ (destroyWS e s).destroyDeferred = some e ∧
      (destroyWS e s).fdOpen = s.fdOpen ∧ (destroyWS e s).fileOnDisk = s.fileOnDisk ∧
      (destroyWS e s).cleanupCalls = s.cleanupCalls) ∧
    ((openComplete p fdv (destroyWS e s)).closePending = some e ∧
      (openComplete p fdv (destroyWS e s)).cleanupCalls
        = { fd := fdv, path := p } :: s.cleanupCalls) ∧
    ((lateDestroyRun e p fdv s).fdOpen = false ∧
      (lateDestroyRun e p fdv s).fileOnDisk = false ∧
      (lateDestroyRun e p fdv s).destroyCbArg = some e ∧
      (lateDestroyRun e p fdv s).cleanupCalls = s.cleanupCalls ∧
      (lateDestroyRun e p fdv s).fd = none) := by
  have hsd : destroyWS e s = { s with destroyed := true, destroyDeferred := some e } := by
    unfold destroyWS
    rw [if_neg (by simp [hd])]
    unfold destroyImpl
    rw [if_neg (by simp [hfd])]
  have hx_cp : (openComplete p fdv (destroyWS e s)).closePending = some e := by
    rw [hsd]
    unfold openComplete emitReady
    dsimp only
    rw [hwd]
    dsimp only
    rw [mapReaders_closePending]
    unfold destroyImpl
    rw [if_pos (by simp)]
    rfl
  have hx_cc : (openComplete p fdv (destroyWS e s)).cleanupCalls
      = { fd := fdv, path := p } :: s.cleanupCalls := by
    rw [hsd]
    unfold openComplete emitReady
    dsimp only
    rw [hwd]
    dsimp only
    rw [mapReaders_cleanupCalls]
    simp
  have hx_cl : (openComplete p fdv (destroyWS e s)).cleanup
      = some { fd := fdv, path := p } := by
    rw [hsd]
    unfold openComplete emitReady
    dsimp only
    rw [hwd]
    dsimp only
    rw [mapReaders_cleanup]
    simp
  have hcd : closeDone none (openComplete p fdv (destroyWS e s))
      = { openComplete p fdv (destroyWS e s) with
          fdOpen := false, closePending := none, unlinkPending := some (none, e) } := by
    unfold closeDone
    rw [hx_cp]
    rfl
  have hT : lateDestroyRun e p fdv s
      = { openComplete p fdv (destroyWS e s) with
          fdOpen := false, closePending := none, fileOnDisk := false, fd := none,
          unlinkPending := none, destroyCbArg := some e,
          cleanupCalls := (openComplete p fdv (destroyWS e s)).cleanupCalls.erase
            { fd := fdv, path := p }
          cleanup := none } := by
    unfold lateDestroyRun
    rw [hcd]
    unfold unlinkDone
    dsimp only
    rw [hx_cl]
    rfl
  refine ⟨⟨?_, ?_, ?_, ?_, ?_⟩, ⟨hx_cp, hx_cc⟩, ?_, ?_, ?_, ?_, ?_⟩
  · rw [hsd]
    exact hcp
  · rw [hsd]
  · rw [hsd]
  · rw [hsd]
  · rw [hsd]
  · rw [hT]
  · rw [hT]
  · rw [hT]
  · rw [hT]
    show (openComplete p fdv (destroyWS e s)).cleanupCalls.erase { fd := fdv, path := p }
      = s.cleanupCalls
    rw [hx_cc]
    exact List.erase_cons_head { fd := fdv, path := p } s.cleanupCalls
  · rw [hT]

/-- C10 witness: a destroy with error 7 requested on a brand-new writer is
deferred, then fully executed once the open completes with path 1 and
descriptor 3. -/
theorem destroy_before_ready_deferred_witness :
    (destroyWS (some 7) Sys.start).closePending = none ∧
    (openComplete 1 3 (destroyWS (some 7) Sys.start)).closePending = some (some 7) ∧
    (lateDestroyRun (some 7) 1 3 Sys.start).fdOpen = false ∧
    (lateDestroyRun (some 7) 1 3 Sys.start).fileOnDisk = false ∧
    (lateDestroyRun (some 7) 1 3 Sys.start).destroyCbArg = some (some 7) ∧
    (lateDestroyRun (some 7) 1 3 Sys.start).cleanupCalls = [] := by
  have h := destroy_before_ready_deferred Sys.start (some 7) 1 3 rfl rfl rfl rfl rfl
  exact ⟨h.1.1, h.2.1.1, h.2.2.1, h.2.2.2.1, h.2.2.2.2.1, h.2.2.2.2.2.1⟩

end FsCapacitor
